import Mathlib

/-!
Verification of the HTTP server in `src/main.rs`.

Strings from the Rust source are modelled as `List Char` (`Str`).  Rust's
`str::split`, `str::split_once` and `Vec::join` are embedded as structural
recursions with the same first-occurrence semantics.  Byte lengths of Rust
strings (`str::len`) are modelled by summing `Char.utf8Size`.  The
filesystem and socket collaborators are modelled by explicit outcome
parameters; a connection-level failure (a propagated `Err`) is `none`.
-/

namespace HttpServer

/-- Model of a Rust `String`: a sequence of characters. -/
abbrev Str := List Char

/-- The two-character CRLF sequence used as the line delimiter. -/
def crlf : Str := ['\r', '\n']

/-- The four-character double-CRLF sequence that separates headers from body. -/
def crlf2 : Str := ['\r', '\n', '\r', '\n']

/-- The two-character sequence of a colon followed by a space. -/
def colonSpace : Str := [':', ' ']

/-- Does `pat` occur at the very start of the string? (Rust `str::starts_with`.) -/
def leadsWith : Str → Str → Bool
  | [], _ => true
  | _ :: _, [] => false
  | p :: ps, x :: xs => x == p && leadsWith ps xs

/-- Does `pat` occur anywhere in the string as a contiguous subsequence? -/
def occursIn (pat : Str) : Str → Bool
  | [] => leadsWith pat []
  | x :: rest => leadsWith pat (x :: rest) || occursIn pat rest

/-- Does the string end with CRLF? -/
def endsCRLF (s : Str) : Bool := leadsWith ['\n', '\r'] s.reverse

/-- Model of Rust `str::split_once(pat)` for a nonempty pattern `pat`: split at
the first occurrence of `pat`, returning the text before and after it. -/
def splitOnceSeq (pat : Str) : Str → Option (Str × Str)
  | [] => none
  | x :: rest =>
    if leadsWith pat (x :: rest) = true then
      some ([], rest.drop (pat.length - 1))
    else
      match splitOnceSeq pat rest with
      | none => none
      | some (a, b) => some (x :: a, b)

/-- Model of Rust `str::split('c')`: split at every occurrence of the character,
yielding one more piece than there are occurrences (pieces may be empty). -/
def splitOnChar (c : Char) : Str → List Str
  | [] => [[]]
  | x :: rest =>
    if x = c then [] :: splitOnChar c rest
    else
      match splitOnChar c rest with
      | [] => [[x]]
      | p :: ps => (x :: p) :: ps

/-- Model of Rust `str::split("\r\n")`: split at every occurrence of CRLF. -/
def splitCRLF : Str → List Str
  | [] => [[]]
  | ['\r'] => [['\r']]
  | '\r' :: '\n' :: rest => [] :: splitCRLF rest
  | x :: rest =>
    match splitCRLF rest with
    | [] => [[x]]
    | p :: ps => (x :: p) :: ps

/-- Model of Rust `Vec::join(sep)` on a list of strings. -/
def joinStr (sep : Str) : List Str → Str
  | [] => []
  | [x] => x
  | x :: xs => x ++ sep ++ joinStr sep xs

/-- Model of Rust `collect::<Option<Vec<_>>>()` over a mapped iterator: succeed
with the list of results iff every element maps to `Some`. -/
def mapOpt (f : α → Option β) : List α → Option (List β)
  | [] => some []
  | x :: xs =>
    match f x with
    | none => none
    | some y =>
      match mapOpt f xs with
      | none => none
      | some ys => some (y :: ys)

/-- Model of Rust `str::len` (the UTF-8 byte length of the string). -/
def byteLen (s : Str) : Nat := (s.map Char.utf8Size).sum

/-- The request line of an HTTP request (`struct RequestLine` in the source). -/
structure RequestLine where
  method : Str
  target : Str
  version : Str
  deriving DecidableEq

/-- One HTTP header as an ordered key/value pair (`struct Header`). -/
structure Header where
  key : Str
  value : Str
  deriving DecidableEq

/-- A parsed HTTP request (`struct Request`). -/
structure Request where
  request_line : RequestLine
  headers : List Header
  body : Str
  deriving DecidableEq

/-- The status line of an HTTP response (`struct StatusLine`). -/
structure StatusLine where
  version : Str
  status_code : Int
  status_text : Str
  deriving DecidableEq

/-- An HTTP response (`struct Response`). -/
structure Response where
  status_line : StatusLine
  headers : List Header
  body : Str
  deriving DecidableEq

/-- The closed set of endpoints on the server (`enum Endpoint`). -/
inductive Endpoint where
  | Index
  | Echo (segment : Str)
  | UserAgent
  | File (filename : Str)
  | NotFound
  deriving DecidableEq

/-- The router (`fn parse_target`): maps a request target to an endpoint by
walking the pieces of the target split on `/`. -/
def parse_target (target : Str) : Endpoint :=
  match splitOnChar '/' target with
  | [] => Endpoint.NotFound
  | first :: rest =>
    if first ≠ [] then Endpoint.NotFound
    else
      match rest with
      | [] => Endpoint.NotFound
      | route :: rest2 =>
        if route = [] then Endpoint.Index
        else if route = ("echo").toList then
          match rest2 with
          | [] => Endpoint.NotFound
          | segment :: _ => Endpoint.Echo segment
        else if route = ("user-agent").toList then Endpoint.UserAgent
        else if route = ("files").toList then
          match rest2 with
          | [] => Endpoint.NotFound
          | segment :: _ => Endpoint.File segment
        else Endpoint.NotFound

/-- One header line parsed by splitting at the first `": "` (the closure inside
`parse_str_to_request`). -/
def parse_header (line : Str) : Option Header :=
  match splitOnceSeq colonSpace line with
  | none => none
  | some (key, value) => some { key := key, value := value }

/-- The request parser (`fn parse_str_to_request`): request line up to the
first CRLF, then at least three space-separated tokens, then headers up to the
first double CRLF, then each header line split at `": "`, then the body. -/
def parse_str_to_request (request : Str) : Option Request :=
  match splitOnceSeq crlf request with
  | none => none
  | some (request_line, headers_and_body) =>
    let request_line_components := splitOnChar ' ' request_line
    if request_line_components.length < 3 then none
    else
      let parsed_request_line : RequestLine :=
        { method := request_line_components.getD 0 []
          target := request_line_components.getD 1 []
          version := request_line_components.getD 2 [] }
      match splitOnceSeq crlf2 headers_and_body with
      | none => none
      | some (headers, body) =>
        match mapOpt parse_header (splitCRLF headers) with
        | none => none
        | some parsed_headers =>
          some { request_line := parsed_request_line
                 headers := parsed_headers
                 body := body }

/-- The response serializer (`fn parse_response_to_str`): status line joined
with single spaces, CRLF, header lines joined with CRLF, double CRLF, body. -/
def parse_response_to_str (response : Response) : Str :=
  let status_line := response.status_line
  let parsed_response :=
    joinStr [' ']
      [status_line.version, (toString status_line.status_code).toList, status_line.status_text]
  let parsed_headers :=
    response.headers.map (fun h => h.key ++ colonSpace ++ h.value)
  parsed_response ++ crlf ++ joinStr crlf parsed_headers ++ crlf ++ crlf ++ response.body

/-- Builder for responses with no headers and no body (`fn respond`). -/
def respond (status_code : Int) (status_text : Str) : Response :=
  { status_line :=
      { version := ("HTTP/1.1").toList
        status_code := status_code
        status_text := status_text }
    headers := []
    body := [] }

/-- Builder for 200 responses carrying a body (`fn respond_with_body`), with a
`Content-Type` header and a `Content-Length` header holding the decimal byte
length of the body. -/
def respond_with_body (content_type : Str) (contents : Str) : Response :=
  { status_line :=
      { version := ("HTTP/1.1").toList
        status_code := 200
        status_text := ("OK").toList }
    headers :=
      [ { key := ("Content-Type").toList, value := content_type }
      , { key := ("Content-Length").toList, value := (toString (byteLen contents)).toList } ]
    body := contents }

/-- Builder for the 404 response (`fn not_found`). -/
def not_found : Response :=
  { status_line :=
      { version := ("HTTP/1.1").toList
        status_code := 404
        status_text := ("Not Found").toList }
    headers := []
    body := [] }

/-- Outcome of the filesystem read collaborator: `File::open` can fail, and
`read_to_string` can fail after a successful open. -/
inductive ReadOutcome where
  | openFail
  | readFail
  | ok (contents : Str)
  deriving DecidableEq

/-- Outcome of the filesystem write collaborator: `File::create` can fail, and
`write_all` can fail after a successful create. -/
inductive WriteOutcome where
  | createFail
  | writeFail
  | okW
  deriving DecidableEq

/-- The base directory lookup inside `process_request`: the argument following
the first `--directory` argument, defaulting to `/`. -/
def get_directory (args : List Str) : Str :=
  match args.findIdx? (fun arg => arg == ("--directory").toList) with
  | none => ['/']
  | some i =>
    match args.get? (i + 1) with
    | none => ['/']
    | some arg => arg

/-- The path handed to the filesystem by the `File` endpoint: the base
directory concatenated directly with the requested filename (line 91 of the
source, `directory.to_owned() + path.as_str()`). -/
def resolve_path (args : List Str) (path : Str) : Str :=
  get_directory args ++ path

/-- The routing-and-handling section of `process_request` (lines 67-117):
from a parsed request to the response, `none` being a propagated error
(connection-level failure). -/
def dispatch (args : List Str) (fsRead : Str → ReadOutcome)
    (fsWrite : Str → Str → WriteOutcome) (request : Request) : Option Response :=
  match parse_target request.request_line.target with
  | Endpoint.Index => some (respond 200 (("OK").toList))
  | Endpoint.Echo body => some (respond_with_body (("text/plain").toList) body)
  | Endpoint.UserAgent =>
    let user_agent :=
      match request.headers.find? (fun h => h.key == ("User-Agent").toList) with
      | none => []
      | some h => h.value
    some (respond_with_body (("text/plain").toList) user_agent)
  | Endpoint.File path =>
    let file_path := resolve_path args path
    if request.request_line.method = ("GET").toList then
      match fsRead file_path with
      | ReadOutcome.openFail => some not_found
      | ReadOutcome.readFail => none
      | ReadOutcome.ok contents =>
        some (respond_with_body (("application/octet-stream").toList) contents)
    else if request.request_line.method = ("POST").toList then
      match fsWrite file_path request.body with
      | WriteOutcome.createFail => none
      | WriteOutcome.writeFail => none
      | WriteOutcome.okW => some (respond 201 (("Created").toList))
    else some not_found
  | Endpoint.NotFound => some not_found

/-- The serializer format as worded by the spec (§4.4), for comparison with
`parse_response_to_str`: the status line `<version> <status_code> <status_text>`
followed by CRLF, each header rendered as `<key>: <value>` joined by CRLF, then
CRLF CRLF, then the body verbatim. -/
def serialize_spec (r : Response) : Str :=
  r.status_line.version ++ [' '] ++ (toString r.status_line.status_code).toList ++ [' ']
    ++ r.status_line.status_text ++ crlf
    ++ joinStr crlf (r.headers.map (fun h => h.key ++ colonSpace ++ h.value))
    ++ crlf ++ crlf ++ r.body

/-- The whole of `process_request` after the socket read and UTF-8 decode:
parse the request, dispatch it, and serialize the response.  The result is the
byte string written back to the socket, or `none` when the connection is
abandoned with an error and nothing is written. -/
def process_request (args : List Str) (fsRead : Str → ReadOutcome)
    (fsWrite : Str → Str → WriteOutcome) (input : Str) : Option Str :=
  match parse_str_to_request input with
  | none => none
  | some request =>
    match dispatch args fsRead fsWrite request with
    | none => none
    | some response => some (parse_response_to_str response)

/-! ### Basic facts about the splitting functions -/

theorem splitOnChar_ne_nil (c : Char) (s : Str) : splitOnChar c s ≠ [] := by
  cases s with
  | nil => simp [splitOnChar]
  | cons x rest =>
    simp only [splitOnChar]
    split
    · simp
    · split <;> simp

theorem splitOnChar_no_sep {c : Char} {s : Str} (h : c ∉ s) : splitOnChar c s = [s] := by
  induction s with
  | nil => rfl
  | cons x rest ih =>
    have hx : x ≠ c := fun hxc => h (hxc ▸ List.mem_cons_self x rest)
    have hr : c ∉ rest := fun hc => h (List.mem_cons_of_mem x hc)
    simp [splitOnChar, hx, ih hr]

theorem splitOnChar_cons_eq (c : Char) (s : Str) :
    splitOnChar c (c :: s) = [] :: splitOnChar c s := by
  simp [splitOnChar]

theorem splitOnChar_cons_ne {c x : Char} {s : Str} {p : Str} {ps : List Str}
    (hx : x ≠ c) (hs : splitOnChar c s = p :: ps) :
    splitOnChar c (x :: s) = (x :: p) :: ps := by
  simp [splitOnChar, hx, hs]

theorem splitOnChar_append_sep (c : Char) (a b : Str) :
    (splitOnChar c (a ++ c :: b)).length =
      (splitOnChar c a).length + (splitOnChar c b).length := by
  induction a with
  | nil =>
    rw [List.nil_append, splitOnChar_cons_eq]
    show ([] :: splitOnChar c b).length = ([[]] : List Str).length + (splitOnChar c b).length
    simp [Nat.add_comm]
  | cons x a ih =>
    by_cases hx : x = c
    · subst hx
      simp only [List.cons_append, splitOnChar_cons_eq, List.length_cons]
      omega
    · obtain ⟨p, ps, hps⟩ :
          ∃ p ps, splitOnChar c (a ++ c :: b) = p :: ps := by
        cases h : splitOnChar c (a ++ c :: b) with
        | nil => exact absurd h (splitOnChar_ne_nil c _)
        | cons p ps => exact ⟨p, ps, rfl⟩
      obtain ⟨q, qs, hqs⟩ : ∃ q qs, splitOnChar c a = q :: qs := by
        cases h : splitOnChar c a with
        | nil => exact absurd h (splitOnChar_ne_nil c a)
        | cons q qs => exact ⟨q, qs, rfl⟩
      rw [List.cons_append, splitOnChar_cons_ne hx hps, splitOnChar_cons_ne hx hqs]
      rw [hps, hqs] at ih
      simpa using ih

theorem splitOnChar_length_pos (c : Char) (s : Str) : 0 < (splitOnChar c s).length := by
  cases h : splitOnChar c s with
  | nil => exact absurd h (splitOnChar_ne_nil c s)
  | cons p ps => simp

/-! ### Router lemmas -/

theorem splitOnChar_echo {s : Str} (hs : ('/' : Char) ∉ s) :
    splitOnChar '/' (("/echo/").toList ++ s) = [[], ("echo").toList, s] := by
  have h1 : splitOnChar '/' s = [s] := splitOnChar_no_sep hs
  have h2 : splitOnChar '/' ('/' :: s) = [[], s] := by
    rw [splitOnChar_cons_eq, h1]
  have h3 : splitOnChar '/' ('o' :: '/' :: s) = [['o'], s] :=
    splitOnChar_cons_ne (by decide) h2
  have h4 : splitOnChar '/' ('h' :: 'o' :: '/' :: s) = [['h', 'o'], s] :=
    splitOnChar_cons_ne (by decide) h3
  have h5 : splitOnChar '/' ('c' :: 'h' :: 'o' :: '/' :: s) = [['c', 'h', 'o'], s] :=
    splitOnChar_cons_ne (by decide) h4
  have h6 : splitOnChar '/' ('e' :: 'c' :: 'h' :: 'o' :: '/' :: s) =
      [['e', 'c', 'h', 'o'], s] := splitOnChar_cons_ne (by decide) h5
  show splitOnChar '/' ('/' :: 'e' :: 'c' :: 'h' :: 'o' :: '/' :: s) = _
  rw [splitOnChar_cons_eq, h6]
  rfl

theorem parse_target_echo {s : Str} (hs : ('/' : Char) ∉ s) :
    parse_target (("/echo/").toList ++ s) = Endpoint.Echo s := by
  unfold parse_target
  rw [splitOnChar_echo hs]
  rfl

theorem parse_target_not_slash {target : Str} (h : target.head? ≠ some '/') :
    parse_target target = Endpoint.NotFound := by
  cases target with
  | nil => rfl
  | cons c t =>
    have hc : c ≠ '/' := by simpa using h
    obtain ⟨p, ps, hps⟩ : ∃ p ps, splitOnChar '/' t = p :: ps := by
      cases h' : splitOnChar '/' t with
      | nil => exact absurd h' (splitOnChar_ne_nil '/' t)
      | cons p ps => exact ⟨p, ps, rfl⟩
    unfold parse_target
    rw [splitOnChar_cons_ne hc hps]
    simp

/-! ### Claim C5: the serializer is total and emits exactly the specified format -/

/-- C5: for every `Response`, the serializer (a total function) emits exactly
the status line `<version> <status_code> <status_text>` followed by CRLF, the
headers rendered as `<key>: <value>` joined by CRLF, then CRLF CRLF, then the
body verbatim; with zero headers the blank line before the body is still
emitted (the headers join is empty and the CRLF CRLF still follows). -/
theorem serializer_exact_format (r : Response) :
    parse_response_to_str r = serialize_spec r := by
  unfold parse_response_to_str serialize_spec
  simp [joinStr, List.append_assoc]

/-! ### Claim C2: an input with an empty headers block -/

/-- C2 counterexample: the claim asserts that an input whose request line is
followed by an empty headers block and the double-CRLF delimiter parses
successfully with an empty header sequence.  On the concrete such input
`"GET / HTTP/1.1\r\n\r\n\r\n"` the parser fails instead: splitting the empty
headers block on CRLF yields one empty line, which has no `": "` separator. -/
theorem empty_headers_counterexample :
    parse_str_to_request (("GET / HTTP/1.1\r\n\r\n\r\n").toList) = none := by decide

/-- C2 amended: for every input whose request line is followed by the
double-CRLF delimiter with an empty headers block in between (so the text
between the first CRLF and the delimiter is empty), parsing FAILS: the empty
headers block splits into one empty line, which lacks the `": "` separator. -/
theorem empty_headers_block_fails (input rl hb b : Str)
    (h1 : splitOnceSeq crlf input = some (rl, hb))
    (h2 : splitOnceSeq crlf2 hb = some ([], b)) :
    parse_str_to_request input = none := by
  simp only [parse_str_to_request, h1]
  by_cases hc : (splitOnChar ' ' rl).length < 3
  · rw [if_pos hc]
  · rw [if_neg hc]
    simp only [h2]
    rfl

/-- C2 amended, witness: a concrete input with an empty headers block and a
nonempty body after the delimiter fails to parse. -/
theorem empty_headers_block_fails_witness :
    parse_str_to_request (("GET / HTTP/1.1\r\n\r\n\r\nhello").toList) = none :=
  empty_headers_block_fails _ (("GET / HTTP/1.1").toList) (("\r\n\r\nhello").toList)
    (("hello").toList) (by decide) (by decide)

/-! ### Claim C9: extra request-line tokens are discarded -/

/-- C9: when the request line splits on single spaces into more than three
tokens, the request-line stage never fails: the first token becomes the
method, the second the target, the third the version, and the remaining
tokens do not influence the result (parsing continues with the headers and
body exactly as it would otherwise). -/
theorem extra_tokens_discarded (input rl hb : Str)
    (hsplit : splitOnceSeq crlf input = some (rl, hb))
    (hlen : 3 < (splitOnChar ' ' rl).length) :
    parse_str_to_request input =
      match splitOnceSeq crlf2 hb with
      | none => none
      | some (hs, body) =>
        match mapOpt parse_header (splitCRLF hs) with
        | none => none
        | some phs =>
          some { request_line :=
                   { method := (splitOnChar ' ' rl).getD 0 []
                     target := (splitOnChar ' ' rl).getD 1 []
                     version := (splitOnChar ' ' rl).getD 2 [] }
                 headers := phs
                 body := body } := by
  simp only [parse_str_to_request, hsplit]
  rw [if_neg (by omega)]

/-- C9 witness: a concrete request line with five tokens (including one empty
token from consecutive spaces) parses, keeping only the first three tokens. -/
theorem extra_tokens_discarded_witness :
    parse_str_to_request (("GET  / HTTP/1.1 xy\r\nA: b\r\n\r\nz").toList) =
      some { request_line := { method := ("GET").toList, target := [],
                               version := ("/").toList },
             headers := [{ key := ("A").toList, value := ("b").toList }],
             body := ("z").toList } := by
  rw [extra_tokens_discarded _ (("GET  / HTTP/1.1 xy").toList)
    (("A: b\r\n\r\nz").toList) (by decide) (by decide)]
  decide

/-! ### Claim C3: malformed request line versus target without a slash -/

/-- C3 counterexample: the claim asserts that an input whose request target
does not start with `/` fails parsing and nothing is written to the socket.
On the concrete input `"GET abc HTTP/1.1\r\nA: b\r\n\r\n"` the parser in fact
succeeds, and the handler writes the serialized 404 response to the socket. -/
theorem target_no_slash_counterexample :
    (parse_str_to_request (("GET abc HTTP/1.1\r\nA: b\r\n\r\n").toList)).isSome = true ∧
    process_request [] (fun _ => ReadOutcome.openFail) (fun _ _ => WriteOutcome.createFail)
        (("GET abc HTTP/1.1\r\nA: b\r\n\r\n").toList) =
      some (parse_response_to_str not_found) := by decide

/-- C3 amended: an input whose request line has fewer than three
space-separated tokens fails parsing, and the connection handler terminates
without writing any bytes; an input whose target does not start with `/` (but
otherwise parses) is routed to `NotFound`, and the serialized 404 response IS
written to the socket. -/
theorem short_request_line_fails_and_no_slash_gets_404 :
    (∀ (args : List Str) (fsRead : Str → ReadOutcome)
       (fsWrite : Str → Str → WriteOutcome) (input rl hb : Str),
       splitOnceSeq crlf input = some (rl, hb) →
       (splitOnChar ' ' rl).length < 3 →
       parse_str_to_request input = none ∧
       process_request args fsRead fsWrite input = none)
    ∧ (∀ (args : List Str) (fsRead : Str → ReadOutcome)
       (fsWrite : Str → Str → WriteOutcome) (input : Str) (req : Request),
       parse_str_to_request input = some req →
       req.request_line.target.head? ≠ some '/' →
       process_request args fsRead fsWrite input =
         some (parse_response_to_str not_found)) := by
  constructor
  · intro args fsRead fsWrite input rl hb hsplit hlen
    have hparse : parse_str_to_request input = none := by
      simp only [parse_str_to_request, hsplit]
      rw [if_pos hlen]
    exact ⟨hparse, by simp only [process_request, hparse]⟩
  · intro args fsRead fsWrite input req hparse hhead
    have hroute : parse_target req.request_line.target = Endpoint.NotFound :=
      parse_target_not_slash hhead
    simp only [process_request, hparse, dispatch, hroute]

/-- C3 amended, witness: a concrete two-token request line is rejected with
nothing written, and a concrete parsed request whose target starts with `x`
gets the 404 response written. -/
theorem short_request_line_witness :
    process_request [] (fun _ => ReadOutcome.openFail) (fun _ _ => WriteOutcome.createFail)
        (("GET /\r\nA: b\r\n\r\n").toList) = none ∧
    process_request [] (fun _ => ReadOutcome.openFail) (fun _ _ => WriteOutcome.createFail)
        (("GET x HTTP/1.1\r\nA: b\r\n\r\n").toList) =
      some (parse_response_to_str not_found) := by
  constructor
  · exact (short_request_line_fails_and_no_slash_gets_404.1 _ _ _ _
      (("GET /").toList) (("A: b\r\n\r\n").toList) (by decide) (by decide)).2
  · exact short_request_line_fails_and_no_slash_gets_404.2 _ _ _ _
      { request_line := { method := ("GET").toList, target := ("x").toList,
                          version := ("HTTP/1.1").toList },
        headers := [{ key := ("A").toList, value := ("b").toList }],
        body := [] } (by decide) (by decide)

/-! ### Claim C1: the echo endpoint -/

/-- C1: for every string `s` with no `/` characters, a well-formed parsed
request whose target is `/echo/` followed by `s` is handled with status 200,
headers `Content-Type: text/plain` and `Content-Length` equal to the decimal
byte length of `s`, and body exactly `s`. -/
theorem echo_identity (args : List Str) (fsRead : Str → ReadOutcome)
    (fsWrite : Str → Str → WriteOutcome) (req : Request) (s : Str)
    (hs : ('/' : Char) ∉ s)
    (htarget : req.request_line.target = ("/echo/").toList ++ s) :
    dispatch args fsRead fsWrite req =
      some (respond_with_body (("text/plain").toList) s) ∧
    (respond_with_body (("text/plain").toList) s).status_line.status_code = 200 ∧
    (respond_with_body (("text/plain").toList) s).headers =
      [{ key := ("Content-Type").toList, value := ("text/plain").toList },
       { key := ("Content-Length").toList, value := (toString (byteLen s)).toList }] ∧
    (respond_with_body (("text/plain").toList) s).body = s := by
  refine ⟨?_, rfl, rfl, rfl⟩
  unfold dispatch
  rw [htarget, parse_target_echo hs]

/-- C1 witness: a concrete request for `/echo/abc` is answered with the
text/plain 200 response whose body is `abc`. -/
theorem echo_identity_witness :
    dispatch [] (fun _ => ReadOutcome.openFail) (fun _ _ => WriteOutcome.createFail)
      { request_line := { method := ("GET").toList, target := ("/echo/abc").toList,
                          version := ("HTTP/1.1").toList },
        headers := [], body := [] } =
      some (respond_with_body (("text/plain").toList) (("abc").toList)) :=
  (echo_identity _ _ _ _ (("abc").toList) (by decide) (by decide)).1

/-! ### First-match lookup lemmas used by the User-Agent handler -/

theorem find?_append_first {α : Type} (p : α → Bool) (pre post : List α) (a : α)
    (ha : p a = true) (hpre : ∀ x ∈ pre, p x = false) :
    (pre ++ a :: post).find? p = some a := by
  induction pre with
  | nil => simp [List.find?, ha]
  | cons x xs ih =>
    have hx := hpre x (List.mem_cons_self x xs)
    simp only [List.cons_append, List.find?, hx]
    exact ih fun y hy => hpre y (List.mem_cons_of_mem x hy)

theorem find?_all_neg {α : Type} (p : α → Bool) (l : List α)
    (h : ∀ x ∈ l, p x = false) : l.find? p = none := by
  induction l with
  | nil => rfl
  | cons x xs ih =>
    have hx := h x (List.mem_cons_self x xs)
    simp only [List.find?, hx]
    exact ih fun y hy => h y (List.mem_cons_of_mem x hy)

/-! ### Claim C6: the User-Agent endpoint takes the first matching header -/

/-- C6: a request routed to `UserAgent` is answered with status 200, the
text/plain `Content-Type` header and a `Content-Length` header, and its body
is exactly the value of the first header (in arrival order) whose key is
literally `User-Agent` — later headers with the same key are ignored — or the
empty string when no header has that key. -/
theorem user_agent_first_match (args : List Str) (fsRead : Str → ReadOutcome)
    (fsWrite : Str → Str → WriteOutcome) (req : Request)
    (hroute : parse_target req.request_line.target = Endpoint.UserAgent) :
    (∀ (pre post : List Header) (h : Header),
       req.headers = pre ++ h :: post →
       h.key = ("User-Agent").toList →
       (∀ h' ∈ pre, h'.key ≠ ("User-Agent").toList) →
       dispatch args fsRead fsWrite req =
         some (respond_with_body (("text/plain").toList) h.value))
    ∧ ((∀ h' ∈ req.headers, h'.key ≠ ("User-Agent").toList) →
       dispatch args fsRead fsWrite req =
         some (respond_with_body (("text/plain").toList) []))
    ∧ (∀ v : Str,
       (respond_with_body (("text/plain").toList) v).status_line.status_code = 200 ∧
       (respond_with_body (("text/plain").toList) v).headers =
         [{ key := ("Content-Type").toList, value := ("text/plain").toList },
          { key := ("Content-Length").toList, value := (toString (byteLen v)).toList }] ∧
       (respond_with_body (("text/plain").toList) v).body = v) := by
  refine ⟨?_, ?_, fun v => ⟨rfl, rfl, rfl⟩⟩
  · intro pre post h hsplit hkey hpre
    have hfind : req.headers.find? (fun x => x.key == ("User-Agent").toList) = some h := by
      rw [hsplit]
      exact find?_append_first _ pre post h (by simp [hkey])
        fun x hx => by simpa using hpre x hx
    simp only [dispatch, hroute, hfind]
  · intro hnone
    have hfind : req.headers.find? (fun x => x.key == ("User-Agent").toList) = none :=
      find?_all_neg _ _ fun x hx => by simpa using hnone x hx
    simp only [dispatch, hroute, hfind]

/-- C6 witness: with two `User-Agent` headers present, the response body is the
value of the first one. -/
theorem user_agent_first_match_witness :
    dispatch [] (fun _ => ReadOutcome.openFail) (fun _ _ => WriteOutcome.createFail)
      { request_line := { method := ("GET").toList, target := ("/user-agent").toList,
                          version := ("HTTP/1.1").toList },
        headers := [{ key := ("Host").toList, value := ("x").toList },
                    { key := ("User-Agent").toList, value := ("curl").toList },
                    { key := ("User-Agent").toList, value := ("other").toList }],
        body := [] } =
      some (respond_with_body (("text/plain").toList) (("curl").toList)) :=
  (user_agent_first_match _ _ _ _ (by decide)).1
    [{ key := ("Host").toList, value := ("x").toList }]
    [{ key := ("User-Agent").toList, value := ("other").toList }]
    { key := ("User-Agent").toList, value := ("curl").toList }
    (by decide) (by decide) (by decide)

/-! ### Claim C4: read failures on the file-serving endpoint -/

/-- C4 counterexample: the claim asserts every read failure yields the 404
response.  But when `File::open` succeeds and the subsequent read fails, the
error propagates as a connection-level failure: on a concrete `GET /files/x`
request with the read outcome `readFail`, nothing is written to the socket
(`none`), not the 404 response. -/
theorem read_failure_counterexample :
    parse_target (("/files/x").toList) = Endpoint.File (("x").toList) ∧
    process_request [] (fun _ => ReadOutcome.readFail) (fun _ _ => WriteOutcome.createFail)
        (("GET /files/x HTTP/1.1\r\nA: b\r\n\r\n").toList) = none := by decide

/-- C4 amended: for a GET request routed to `File(name)`, a failure of
`File::open` produces the 404 Not Found response with no headers and empty
body, but a failure of the read after a successful open propagates as a
connection-level failure (nothing is written to the socket). -/
theorem file_get_read_failures (args : List Str) (fsRead : Str → ReadOutcome)
    (fsWrite : Str → Str → WriteOutcome) (req : Request) (name : Str)
    (hroute : parse_target req.request_line.target = Endpoint.File name)
    (hmethod : req.request_line.method = ("GET").toList) :
    (fsRead (resolve_path args name) = ReadOutcome.openFail →
       dispatch args fsRead fsWrite req = some not_found) ∧
    (fsRead (resolve_path args name) = ReadOutcome.readFail →
       dispatch args fsRead fsWrite req = none ∧
       ∀ input : Str, parse_str_to_request input = some req →
         process_request args fsRead fsWrite input = none) ∧
    (not_found.status_line.status_code = 404 ∧ not_found.headers = [] ∧
       not_found.body = ([] : Str)) := by
  refine ⟨?_, ?_, rfl, rfl, rfl⟩
  · intro hread
    simp only [dispatch, hroute, hmethod, if_pos, hread]
  · intro hread
    have hd : dispatch args fsRead fsWrite req = none := by
      simp only [dispatch, hroute, hmethod, if_pos, hread]
    exact ⟨hd, fun input hinp => by simp only [process_request, hinp, hd]⟩

/-- C4 amended, witness: a concrete `GET /files/x` request gets the 404
response when the open fails, and aborts the connection when the read after a
successful open fails. -/
theorem file_get_read_failures_witness :
    dispatch [] (fun _ => ReadOutcome.openFail) (fun _ _ => WriteOutcome.createFail)
      { request_line := { method := ("GET").toList, target := ("/files/x").toList,
                          version := ("HTTP/1.1").toList },
        headers := [], body := [] } = some not_found ∧
    dispatch [] (fun _ => ReadOutcome.readFail) (fun _ _ => WriteOutcome.createFail)
      { request_line := { method := ("GET").toList, target := ("/files/x").toList,
                          version := ("HTTP/1.1").toList },
        headers := [], body := [] } = none := by
  constructor
  · exact (file_get_read_failures [] _ _ _ (("x").toList) (by decide) (by decide)).1 rfl
  · exact ((file_get_read_failures [] _ _ _ (("x").toList) (by decide) (by decide)).2.1 rfl).1

/-! ### Claim C7: the POST file endpoint -/

/-- C7: for a POST request routed to `File(name)`, a successful filesystem
write of the request body yields the 201 Created response with no headers and
empty body, while a create or write failure propagates as a connection-level
failure (nothing is written to the socket) rather than producing a 404. -/
theorem file_post_created_or_propagates (args : List Str) (fsRead : Str → ReadOutcome)
    (fsWrite : Str → Str → WriteOutcome) (req : Request) (name : Str)
    (hroute : parse_target req.request_line.target = Endpoint.File name)
    (hmethod : req.request_line.method = ("POST").toList) :
    (fsWrite (resolve_path args name) req.body = WriteOutcome.okW →
       dispatch args fsRead fsWrite req = some (respond 201 (("Created").toList)) ∧
       (respond 201 (("Created").toList)).status_line.status_code = 201 ∧
       (respond 201 (("Created").toList)).status_line.status_text = ("Created").toList ∧
       (respond 201 (("Created").toList)).headers = [] ∧
       (respond 201 (("Created").toList)).body = ([] : Str)) ∧
    (∀ input : Str, parse_str_to_request input = some req →
       (fsWrite (resolve_path args name) req.body = WriteOutcome.createFail ∨
        fsWrite (resolve_path args name) req.body = WriteOutcome.writeFail) →
       process_request args fsRead fsWrite input = none) := by
  have hne : (("POST").toList : Str) ≠ ("GET").toList := by decide
  constructor
  · intro hwrite
    refine ⟨?_, rfl, rfl, rfl, rfl⟩
    simp only [dispatch, hroute, hmethod, if_neg hne, if_pos, hwrite]
  · intro input hinp hwrite
    have hd : dispatch args fsRead fsWrite req = none := by
      rcases hwrite with hw | hw <;>
        simp only [dispatch, hroute, hmethod, if_neg hne, if_pos, hw]
    simp only [process_request, hinp, hd]

/-- C7 witness: a concrete `POST /files/f` request whose write succeeds is
answered 201 Created, and the same request aborts the connection with nothing
written when the create fails. -/
theorem file_post_witness :
    process_request [] (fun _ => ReadOutcome.openFail) (fun _ _ => WriteOutcome.okW)
        (("POST /files/f HTTP/1.1\r\nA: b\r\n\r\nhello").toList) =
      some (parse_response_to_str (respond 201 (("Created").toList))) ∧
    process_request [] (fun _ => ReadOutcome.openFail) (fun _ _ => WriteOutcome.createFail)
        (("POST /files/f HTTP/1.1\r\nA: b\r\n\r\nhello").toList) = none := by
  constructor
  · have h := (file_post_created_or_propagates [] (fun _ => ReadOutcome.openFail)
      (fun _ _ => WriteOutcome.okW)
      { request_line := { method := ("POST").toList, target := ("/files/f").toList,
                          version := ("HTTP/1.1").toList },
        headers := [{ key := ("A").toList, value := ("b").toList }],
        body := ("hello").toList }
      (("f").toList) (by decide) (by decide)).1 rfl
    simp only [process_request, show parse_str_to_request
      (("POST /files/f HTTP/1.1\r\nA: b\r\n\r\nhello").toList) =
        some { request_line := { method := ("POST").toList, target := ("/files/f").toList,
                                 version := ("HTTP/1.1").toList },
               headers := [{ key := ("A").toList, value := ("b").toList }],
               body := ("hello").toList } from by decide, h.1]
  · exact (file_post_created_or_propagates [] (fun _ => ReadOutcome.openFail)
      (fun _ _ => WriteOutcome.createFail)
      { request_line := { method := ("POST").toList, target := ("/files/f").toList,
                          version := ("HTTP/1.1").toList },
        headers := [{ key := ("A").toList, value := ("b").toList }],
        body := ("hello").toList }
      (("f").toList) (by decide) (by decide)).2 _ (by decide) (Or.inl rfl)

/-! ### Claim C10: file path resolution is literal concatenation -/

/-- C10: for every request routed to `File(name)` — whatever its method — the
filesystem is consulted at exactly the literal concatenation of the configured
base directory and `name`, with no separator inserted and no normalization:
the handler's outcome depends on the read and write collaborators only through
their values at `get_directory args ++ name` (both the GET read channel and
the POST write channel resolve this same path, and other methods touch the
filesystem at no path at all); a GET served from that path returns its
contents, a POST writes the body to that path, and the base directory defaults
to `/` when no `--directory` argument is configured. -/
theorem file_path_literal_concatenation (args : List Str) (fsRead : Str → ReadOutcome)
    (fsWrite : Str → Str → WriteOutcome) (req : Request) (name : Str)
    (hroute : parse_target req.request_line.target = Endpoint.File name) :
    (∀ contents : Str, req.request_line.method = ("GET").toList →
       fsRead (get_directory args ++ name) = ReadOutcome.ok contents →
       dispatch args fsRead fsWrite req =
         some (respond_with_body (("application/octet-stream").toList) contents)) ∧
    (req.request_line.method = ("POST").toList →
       fsWrite (get_directory args ++ name) req.body = WriteOutcome.okW →
       dispatch args fsRead fsWrite req = some (respond 201 (("Created").toList))) ∧
    (∀ (fsRead2 : Str → ReadOutcome) (fsWrite2 : Str → Str → WriteOutcome),
       fsRead2 (get_directory args ++ name) = fsRead (get_directory args ++ name) →
       fsWrite2 (get_directory args ++ name) req.body =
         fsWrite (get_directory args ++ name) req.body →
       dispatch args fsRead2 fsWrite2 req = dispatch args fsRead fsWrite req) ∧
    ((("--directory").toList : Str) ∉ args → get_directory args = ['/']) := by
  have hne : (("POST").toList : Str) ≠ ("GET").toList := by decide
  refine ⟨?_, ?_, ?_, ?_⟩
  · intro contents hmethod hread
    simp only [dispatch, hroute, hmethod, if_pos, resolve_path, hread]
  · intro hmethod hwrite
    simp only [dispatch, hroute, hmethod, if_neg hne, if_pos, resolve_path, hwrite]
  · intro fsRead2 fsWrite2 hr hw
    by_cases hm : req.request_line.method = ("GET").toList
    · simp only [dispatch, hroute, resolve_path, hm, if_pos, hr]
    · by_cases hp : req.request_line.method = ("POST").toList
      · simp only [dispatch, hroute, resolve_path, hp, if_neg hne, if_pos, hw]
      · simp only [dispatch, hroute, resolve_path, if_neg hm, if_neg hp]
  · intro hmem
    have hidx : args.findIdx? (fun arg => arg == ("--directory").toList) = none := by
      rw [List.findIdx?_eq_none_iff]
      intro x hx
      simp only [beq_eq_false_iff_ne, ne_eq]
      exact fun hEq => hmem (hEq ▸ hx)
    simp only [get_directory, hidx]

/-- C10 witness: with base directory `/tmp` (no trailing slash) and filename
`foo`, a GET is read from the fused sibling path `/tmpfoo` and a POST is
written to that same fused path; with no `--directory` argument the directory
defaults to `/`. -/
theorem file_path_literal_concatenation_witness :
    dispatch [("--directory").toList, ("/tmp").toList]
      (fun p => if p = ("/tmpfoo").toList then ReadOutcome.ok (("hi").toList)
                else ReadOutcome.openFail)
      (fun _ _ => WriteOutcome.createFail)
      { request_line := { method := ("GET").toList, target := ("/files/foo").toList,
                          version := ("HTTP/1.1").toList },
        headers := [], body := [] } =
      some (respond_with_body (("application/octet-stream").toList) (("hi").toList)) ∧
    dispatch [("--directory").toList, ("/tmp").toList]
      (fun _ => ReadOutcome.openFail)
      (fun p _ => if p = ("/tmpfoo").toList then WriteOutcome.okW
                  else WriteOutcome.createFail)
      { request_line := { method := ("POST").toList, target := ("/files/foo").toList,
                          version := ("HTTP/1.1").toList },
        headers := [], body := ("hi").toList } =
      some (respond 201 (("Created").toList)) ∧
    get_directory [] = ['/'] := by
  refine ⟨?_, ?_, ?_⟩
  · exact (file_path_literal_concatenation [("--directory").toList, ("/tmp").toList]
      _ _ _ (("foo").toList) (by decide)).1 (("hi").toList) (by decide) (by decide)
  · exact (file_path_literal_concatenation [("--directory").toList, ("/tmp").toList]
      (fun _ => ReadOutcome.openFail)
      (fun p _ => if p = ("/tmpfoo").toList then WriteOutcome.okW
                  else WriteOutcome.createFail)
      { request_line := { method := ("POST").toList, target := ("/files/foo").toList,
                          version := ("HTTP/1.1").toList },
        headers := [], body := ("hi").toList }
      (("foo").toList) (by decide)).2.1 (by decide) (by decide)
  · exact (file_path_literal_concatenation []
      (fun _ => ReadOutcome.openFail) (fun _ _ => WriteOutcome.createFail)
      { request_line := { method := ("GET").toList, target := ("/files/foo").toList,
                          version := ("HTTP/1.1").toList },
        headers := [], body := [] }
      (("foo").toList) (by decide)).2.2.2 (by decide)

/-! ### Occurrence lemmas for two- and four-character delimiters -/

theorem leadsWith_pair_elim {p q : Char} {l : Str} (h : leadsWith [p, q] l = true) :
    ∃ t, l = p :: q :: t := by
  cases l with
  | nil => simp [leadsWith] at h
  | cons x t =>
    cases t with
    | nil => simp [leadsWith] at h
    | cons y u =>
      simp [leadsWith] at h
      exact ⟨u, by rw [h.1, h.2]⟩

theorem occursIn_cons_elim {pat : Str} {x : Char} {rest : Str}
    (h : occursIn pat (x :: rest) = false) :
    leadsWith pat (x :: rest) = false ∧ occursIn pat rest = false := by
  simpa [occursIn] using h

theorem occursIn_of_leadsWith {pat : Str} {x : Char} {rest : Str}
    (h : leadsWith pat (x :: rest) = true) : occursIn pat (x :: rest) = true := by
  simp [occursIn, h]

theorem splitOnceSeq_pair {p q : Char} (hpq : p ≠ q) (a b : Str)
    (ha : occursIn [p, q] a = false) :
    splitOnceSeq [p, q] (a ++ [p, q] ++ b) = some (a, b) := by
  induction a with
  | nil => simp [splitOnceSeq, leadsWith]
  | cons x a' ih =>
    have h2 := occursIn_cons_elim ha
    have hlead : leadsWith [p, q] (x :: (a' ++ [p, q] ++ b)) = false := by
      cases hx : x == p with
      | false => simp [leadsWith, hx]
      | true =>
        cases a' with
        | nil => simp [leadsWith, hpq]
        | cons y a'' =>
          cases hy : y == q with
          | false => simp [leadsWith, hy]
          | true =>
            exfalso
            have hl : leadsWith [p, q] (x :: y :: a'') = true := by
              simp [leadsWith]
              exact ⟨by simpa using hx, by simpa using hy⟩
            simp [h2.1] at hl
    simp only [List.cons_append, List.append_assoc] at hlead ⊢
    simp only [splitOnceSeq, hlead]
    have ih' := ih h2.2
    simp only [List.append_assoc, List.cons_append, List.nil_append] at ih'
    simp [ih']

theorem endsCRLF_cons {x : Char} {s : Str} (h : endsCRLF s = true) :
    endsCRLF (x :: s) = true := by
  obtain ⟨t, ht⟩ := leadsWith_pair_elim h
  unfold endsCRLF
  rw [List.reverse_cons, ht]
  simp [leadsWith]

theorem occ_append_crlf (a : Str) : occursIn crlf (a ++ ['\r', '\n']) = true := by
  induction a with
  | nil => decide
  | cons x a' ih => simp [occursIn, ih]

theorem endsCRLF_imp_occ {l : Str} (h : endsCRLF l = true) : occursIn crlf l = true := by
  obtain ⟨t, ht⟩ := leadsWith_pair_elim h
  have hl : l = t.reverse ++ ['\r', '\n'] := by
    have h2 := congrArg List.reverse ht
    simpa using h2
  rw [hl]
  exact occ_append_crlf t.reverse

theorem occ_crlf2_of_no_crlf {l : Str} (h : occursIn crlf l = false) :
    occursIn crlf2 l = false := by
  induction l with
  | nil => rfl
  | cons x rest ih =>
    have h2 := occursIn_cons_elim h
    have hlead : leadsWith crlf2 (x :: rest) = false := by
      cases rest with
      | nil => simp [leadsWith, crlf2]
      | cons y rest' =>
        cases hx : x == '\r' with
        | false => simp [leadsWith, crlf2, hx]
        | true =>
          cases hy : y == '\n' with
          | false => simp [leadsWith, crlf2, hx, hy]
          | true =>
            exfalso
            have hl : leadsWith crlf (x :: y :: rest') = true := by
              simp [leadsWith, crlf]
              exact ⟨by simpa using hx, by simpa using hy⟩
            simp [h2.1] at hl
    simp [occursIn, hlead, ih h2.2]

theorem splitOnceSeq_crlf2_append (a b : Str)
    (ha : occursIn crlf2 a = false) (hend : endsCRLF a = false) :
    splitOnceSeq crlf2 (a ++ crlf2 ++ b) = some (a, b) := by
  induction a with
  | nil => simp [splitOnceSeq, leadsWith, crlf2]
  | cons x a' ih =>
    have h2 := occursIn_cons_elim ha
    have hend' : endsCRLF a' = false := by
      cases h : endsCRLF a' with
      | false => rfl
      | true =>
        exfalso
        have h3 := endsCRLF_cons (x := x) h
        simp [hend] at h3
    have hlead : leadsWith crlf2 (x :: (a' ++ crlf2 ++ b)) = false := by
      cases a' with
      | nil => simp [leadsWith, crlf2]
      | cons y a'' =>
        cases a'' with
        | nil =>
          cases hx : x == '\r' with
          | false => simp [leadsWith, crlf2, hx]
          | true =>
            cases hy : y == '\n' with
            | false => simp [leadsWith, crlf2, hx, hy]
            | true =>
              exfalso
              have hxv : x = '\r' := by simpa using hx
              have hyv : y = '\n' := by simpa using hy
              subst hxv
              subst hyv
              exact absurd hend (by decide)
        | cons z a''' =>
          cases a''' with
          | nil => simp [leadsWith, crlf2]
          | cons w rest =>
            cases hx : x == '\r' with
            | false => simp [leadsWith, crlf2, hx]
            | true =>
              cases hy : y == '\n' with
              | false => simp [leadsWith, crlf2, hx, hy]
              | true =>
                cases hz : z == '\r' with
                | false => simp [leadsWith, crlf2, hx, hy, hz]
                | true =>
                  cases hw : w == '\n' with
                  | false => simp [leadsWith, crlf2, hx, hy, hz, hw]
                  | true =>
                    exfalso
                    have hl : leadsWith crlf2 (x :: y :: z :: w :: rest) = true := by
                      simp [leadsWith, crlf2]
                      exact ⟨by simpa using hx, by simpa using hy,
                        by simpa using hz, by simpa using hw⟩
                    simp [h2.1] at hl
    simp only [List.cons_append, List.append_assoc] at hlead ⊢
    simp only [splitOnceSeq, hlead]
    have ih' := ih h2.2 hend'
    simp only [crlf2, List.append_assoc, List.cons_append, List.nil_append] at ih'
    simp [crlf2, ih']

theorem occursIn_pair_append {p q : Char} {a b : Str}
    (ha : occursIn [p, q] a = false) (hb : occursIn [p, q] b = false)
    (hh : b.head? ≠ some q) : occursIn [p, q] (a ++ b) = false := by
  induction a with
  | nil => simpa using hb
  | cons x a' ih =>
    have h2 := occursIn_cons_elim ha
    have hlead : leadsWith [p, q] (x :: (a' ++ b)) = false := by
      cases hx : x == p with
      | false => simp [leadsWith, hx]
      | true =>
        cases a' with
        | nil =>
          cases b with
          | nil => simp [leadsWith]
          | cons u b' =>
            have hu : u ≠ q := by simpa using hh
            simp [leadsWith, hu]
        | cons y a'' =>
          cases hy : y == q with
          | false => simp [leadsWith, hy]
          | true =>
            exfalso
            have hl : leadsWith [p, q] (x :: y :: a'') = true := by
              simp [leadsWith]
              exact ⟨by simpa using hx, by simpa using hy⟩
            simp [h2.1] at hl
    simp only [List.cons_append]
    simp [occursIn, hlead, ih h2.2]

theorem occursIn_crlf2_mid (l J : Str) (hl : occursIn crlf l = false)
    (hJ2 : occursIn crlf2 J = false) (hJh : leadsWith crlf J = false) :
    occursIn crlf2 (l ++ crlf ++ J) = false := by
  induction l with
  | nil =>
    show occursIn crlf2 ('\r' :: '\n' :: J) = false
    have h1 : leadsWith crlf2 ('\r' :: '\n' :: J) = false := by
      simp only [crlf2, leadsWith]
      simpa [crlf] using hJh
    have hmid : leadsWith crlf2 ('\n' :: J) = false := by simp [leadsWith, crlf2]
    simp [occursIn, h1, hmid, hJ2]
  | cons x l' ih =>
    have h2 := occursIn_cons_elim hl
    have hlead : leadsWith crlf2 (x :: (l' ++ crlf ++ J)) = false := by
      cases hx : x == '\r' with
      | false => simp [leadsWith, crlf2, hx]
      | true =>
        cases l' with
        | nil => simp [leadsWith, crlf2, crlf]
        | cons y l'' =>
          cases hy : y == '\n' with
          | false => simp [leadsWith, crlf2, hy]
          | true =>
            exfalso
            have hl3 : leadsWith crlf (x :: y :: l'') = true := by
              simp [leadsWith, crlf]
              exact ⟨by simpa using hx, by simpa using hy⟩
            simp [h2.1] at hl3
    simp only [List.cons_append, List.append_assoc] at hlead ⊢
    simp only [occursIn, hlead, Bool.false_or]
    have ih' := ih h2.2
    simpa [List.append_assoc] using ih'

theorem endsCRLF_mid (l J : Str) (hJ : J ≠ []) (h : endsCRLF J = false) :
    endsCRLF (l ++ crlf ++ J) = false := by
  unfold endsCRLF at h ⊢
  rw [List.reverse_append, List.reverse_append]
  cases hJr : J.reverse with
  | nil => exact absurd (by simpa using hJr) hJ
  | cons c u =>
    rw [hJr] at h
    cases hc : c == '\n' with
    | false => simp [leadsWith, hc]
    | true =>
      cases u with
      | nil => simp [leadsWith, crlf]
      | cons d u' =>
        cases hd : d == '\r' with
        | false => simp [leadsWith, hd]
        | true =>
          exfalso
          have hl : leadsWith ['\n', '\r'] (c :: d :: u') = true := by
            simp [leadsWith]
            exact ⟨by simpa using hc, by simpa using hd⟩
          simp [h] at hl

theorem joinStr_single (sep x : Str) : joinStr sep [x] = x := rfl

theorem joinStr_cons_cons (sep x y : Str) (rest : List Str) :
    joinStr sep (x :: y :: rest) = x ++ sep ++ joinStr sep (y :: rest) := rfl

theorem joinStr_cons_ne_nil {r : Str} (hr : r ≠ []) (sep : Str) (rs : List Str) :
    joinStr sep (r :: rs) ≠ [] := by
  cases rs with
  | nil => simpa [joinStr_single] using hr
  | cons s rs' => simp [joinStr_cons_cons, hr]

theorem leadsWith_crlf_append {r t : Str} (hr : r ≠ []) (hocc : occursIn crlf r = false)
    (ht : t.head? ≠ some '\n') : leadsWith crlf (r ++ t) = false := by
  cases r with
  | nil => exact absurd rfl hr
  | cons c r' =>
    cases hc : c == '\r' with
    | false => simp [leadsWith, crlf, hc]
    | true =>
      cases r' with
      | nil =>
        cases t with
        | nil => simp [leadsWith, crlf]
        | cons u t' =>
          have hu : u ≠ '\n' := by simpa using ht
          simp [leadsWith, crlf, hu]
      | cons d r'' =>
        cases hd : d == '\n' with
        | false => simp [leadsWith, crlf, hd]
        | true =>
          exfalso
          have hl : leadsWith crlf (c :: d :: r'') = true := by
            simp [leadsWith, crlf]
            exact ⟨by simpa using hc, by simpa using hd⟩
          have hocc2 := occursIn_of_leadsWith hl
          simp [hocc] at hocc2

theorem leadsWith_crlf_join {r : Str} (hr : r ≠ []) (hocc : occursIn crlf r = false)
    (rest : List Str) : leadsWith crlf (joinStr crlf (r :: rest)) = false := by
  cases rest with
  | nil =>
    rw [joinStr_single, ← List.append_nil r]
    exact leadsWith_crlf_append hr hocc (by simp)
  | cons s rest' =>
    rw [joinStr_cons_cons, List.append_assoc]
    exact leadsWith_crlf_append hr hocc (by simp [crlf])

theorem join_good : ∀ lines : List Str,
    (∀ l ∈ lines, l ≠ [] ∧ occursIn crlf l = false) →
    occursIn crlf2 (joinStr crlf lines) = false ∧
      endsCRLF (joinStr crlf lines) = false := by
  intro lines
  induction lines with
  | nil => intro _; exact ⟨rfl, rfl⟩
  | cons l rest ih =>
    intro h
    have hl := h l (List.mem_cons_self l rest)
    cases rest with
    | nil =>
      rw [joinStr_single]
      refine ⟨occ_crlf2_of_no_crlf hl.2, ?_⟩
      cases he : endsCRLF l with
      | false => rfl
      | true =>
        exfalso
        have ho := endsCRLF_imp_occ he
        simp [hl.2] at ho
    | cons m rest' =>
      have hrest : ∀ x ∈ (m :: rest'), x ≠ [] ∧ occursIn crlf x = false :=
        fun x hx => h x (List.mem_cons_of_mem l hx)
      have hm := hrest m (List.mem_cons_self m rest')
      have ihr := ih hrest
      rw [joinStr_cons_cons]
      constructor
      · exact occursIn_crlf2_mid l _ hl.2 ihr.1 (leadsWith_crlf_join hm.1 hm.2 rest')
      · exact endsCRLF_mid l _ (joinStr_cons_ne_nil hm.1 crlf rest') ihr.2

theorem splitCRLF_eq_cons (x : Char) (l : Str) (h : ¬(x = '\r' ∧ l.head? = some '\n')) :
    splitCRLF (x :: l) =
      match splitCRLF l with
      | [] => [[x]]
      | p :: ps => (x :: p) :: ps := by
  rw [splitCRLF.eq_def]
  split
  · -- arm `[]` cannot match a cons
    rename_i heq
    exact absurd heq (by simp)
  · -- arm `['\r']`: here `x = '\r'` and `l = []`
    rename_i heq
    rw [List.cons.injEq] at heq
    obtain ⟨hx, hl⟩ := heq
    subst hx
    subst hl
    rfl
  · -- arm `'\r' :: '\n' :: rest` contradicts the hypothesis
    rename_i rest heq
    rw [List.cons.injEq] at heq
    obtain ⟨hx, hl⟩ := heq
    refine absurd ⟨hx, ?_⟩ h
    subst hl
    rfl
  · -- default arm
    rename_i heq
    injection heq with h1 h2
    subst h1
    subst h2
    rfl

theorem splitCRLF_no_crlf {l : Str} (h : occursIn crlf l = false) :
    splitCRLF l = [l] := by
  induction l with
  | nil => rfl
  | cons x l' ih =>
    have h2 := occursIn_cons_elim h
    have hcond : ¬(x = '\r' ∧ l'.head? = some '\n') := by
      rintro ⟨hx, hh⟩
      subst hx
      cases l' with
      | nil => simp at hh
      | cons y t =>
        have hy : y = '\n' := by simpa using hh
        subst hy
        have hl : leadsWith crlf ('\r' :: '\n' :: t) = true := by simp [leadsWith, crlf]
        simp [h2.1] at hl
    rw [splitCRLF_eq_cons x l' hcond, ih h2.2]

theorem splitCRLF_append (l t : Str) (h : occursIn crlf l = false) :
    splitCRLF (l ++ crlf ++ t) = l :: splitCRLF t := by
  induction l with
  | nil => rfl
  | cons x l' ih =>
    have h2 := occursIn_cons_elim h
    have hcond : ¬(x = '\r' ∧ (l' ++ crlf ++ t).head? = some '\n') := by
      rintro ⟨hx, hh⟩
      subst hx
      cases l' with
      | nil =>
        simp [crlf] at hh
      | cons y l'' =>
        have hy : y = '\n' := by simpa using hh
        subst hy
        have hl : leadsWith crlf ('\r' :: '\n' :: l'') = true := by simp [leadsWith, crlf]
        simp [h2.1] at hl
    have hstep := splitCRLF_eq_cons x (l' ++ crlf ++ t) hcond
    simp only [List.cons_append, List.append_assoc] at hstep ⊢
    simp only [List.append_assoc] at ih
    rw [hstep, ih h2.2]

theorem splitCRLF_join : ∀ lines : List Str, lines ≠ [] →
    (∀ l ∈ lines, occursIn crlf l = false) →
    splitCRLF (joinStr crlf lines) = lines := by
  intro lines
  induction lines with
  | nil => intro h _; exact absurd rfl h
  | cons l rest ih =>
    intro _ h
    cases rest with
    | nil => rw [joinStr_single]; exact splitCRLF_no_crlf (h l (List.mem_cons_self l []))
    | cons m rest' =>
      rw [joinStr_cons_cons,
        splitCRLF_append l _ (h l (List.mem_cons_self l (m :: rest'))),
        ih (by simp) fun x hx => h x (List.mem_cons_of_mem l hx)]

theorem parse_header_render (h : Header) (hk : occursIn colonSpace h.key = false) :
    parse_header (h.key ++ colonSpace ++ h.value) = some h := by
  have hsplit := splitOnceSeq_pair (p := ':') (q := ' ') (by decide) h.key h.value hk
  unfold parse_header
  rw [show splitOnceSeq colonSpace (h.key ++ colonSpace ++ h.value) =
    some (h.key, h.value) from hsplit]

theorem mapOpt_render : ∀ headers : List Header,
    (∀ h ∈ headers, occursIn colonSpace h.key = false) →
    mapOpt parse_header (headers.map fun h => h.key ++ colonSpace ++ h.value) =
      some headers := by
  intro headers
  induction headers with
  | nil => intro _; rfl
  | cons h rest ih =>
    intro hk
    simp only [List.map_cons, mapOpt,
      parse_header_render h (hk h (List.mem_cons_self h rest)),
      ih fun x hx => hk x (List.mem_cons_of_mem h hx)]

/-! ### The decimal rendering of the status code contains no CR or LF -/

theorem digitChar_star {n : Nat} (h : 16 ≤ n) : Nat.digitChar n = '*' := by
  unfold Nat.digitChar
  repeat rw [if_neg (by omega)]

theorem digitChar_ne_cr (n : Nat) : Nat.digitChar n ≠ '\r' := by
  rcases Nat.lt_or_ge n 16 with h | h
  · interval_cases n <;> decide
  · rw [digitChar_star h]; decide

theorem digitChar_ne_lf (n : Nat) : Nat.digitChar n ≠ '\n' := by
  rcases Nat.lt_or_ge n 16 with h | h
  · interval_cases n <;> decide
  · rw [digitChar_star h]; decide

theorem toDigitsCore_chars (b : Nat) : ∀ (f n : Nat) (acc : List Char),
    (∀ c ∈ acc, c ≠ '\r' ∧ c ≠ '\n') →
    ∀ c ∈ Nat.toDigitsCore b f n acc, c ≠ '\r' ∧ c ≠ '\n' := by
  intro f
  induction f with
  | zero => intro n acc hacc; simpa [Nat.toDigitsCore] using hacc
  | succ f ih =>
    intro n acc hacc
    simp only [Nat.toDigitsCore]
    split
    · intro c hc
      rcases List.mem_cons.mp hc with hc | hc
      · subst hc; exact ⟨digitChar_ne_cr _, digitChar_ne_lf _⟩
      · exact hacc c hc
    · refine ih (n / b) _ fun c hc => ?_
      rcases List.mem_cons.mp hc with hc | hc
      · subst hc; exact ⟨digitChar_ne_cr _, digitChar_ne_lf _⟩
      · exact hacc c hc

theorem natRepr_chars (n : Nat) : ∀ c ∈ (Nat.repr n).toList, c ≠ '\r' ∧ c ≠ '\n' := by
  intro c hc
  have hc2 : c ∈ Nat.toDigits 10 n := hc
  exact toDigitsCore_chars 10 (n + 1) n [] (by simp) c hc2

theorem intToString_chars (i : Int) : ∀ c ∈ (toString i).toList, c ≠ '\r' ∧ c ≠ '\n' := by
  cases i with
  | ofNat m => exact natRepr_chars m
  | negSucc m =>
    intro c hc
    have hres : (toString (Int.negSucc m)).toList = '-' :: (Nat.repr (m + 1)).toList := rfl
    rw [hres] at hc
    rcases List.mem_cons.mp hc with hc | hc
    · subst hc; exact ⟨by decide, by decide⟩
    · exact natRepr_chars (m + 1) c hc

theorem occ_crlf_of_no_cr {l : Str} (h : ∀ c ∈ l, c ≠ '\r') : occursIn crlf l = false := by
  induction l with
  | nil => rfl
  | cons x rest ih =>
    have hx := h x (List.mem_cons_self x rest)
    have hlead : leadsWith crlf (x :: rest) = false := by simp [leadsWith, crlf, hx]
    simp [occursIn, hlead, ih fun c hc => h c (List.mem_cons_of_mem x hc)]

/-! ### The serialized status line: no CRLF and at least three tokens -/

theorem status_join_shape (v c t : Str) :
    joinStr [' '] [v, c, t] = v ++ (' ' :: (c ++ (' ' :: t))) := by
  show v ++ [' '] ++ (c ++ [' '] ++ t) = _
  simp [List.append_assoc]

theorem occursIn_crlf_append {a b : Str} (ha : occursIn crlf a = false)
    (hb : occursIn crlf b = false) (hh : b.head? ≠ some '\n') :
    occursIn crlf (a ++ b) = false :=
  occursIn_pair_append (p := '\r') (q := '\n') ha hb hh

theorem occ_crlf_cons_space (X : Str) (hX : occursIn crlf X = false) :
    occursIn crlf (' ' :: X) = false := by
  have hl : leadsWith crlf (' ' :: X) = false := by simp [leadsWith, crlf]
  simp [occursIn, hl, hX]

theorem occ_crlf_status (v t : Str) (code : Int)
    (hv : occursIn crlf v = false) (ht : occursIn crlf t = false) :
    occursIn crlf (joinStr [' '] [v, (toString code).toList, t]) = false := by
  rw [status_join_shape]
  refine occursIn_crlf_append hv ?_ (by simp)
  refine occ_crlf_cons_space _ ?_
  refine occursIn_crlf_append ?_ (occ_crlf_cons_space t ht) (by simp)
  exact occ_crlf_of_no_cr fun c hc => (intToString_chars code c hc).1

theorem status_tokens (v t : Str) (code : Int) :
    3 ≤ (splitOnChar ' ' (joinStr [' '] [v, (toString code).toList, t])).length := by
  rw [status_join_shape, splitOnChar_append_sep, splitOnChar_append_sep]
  have h1 := splitOnChar_length_pos ' ' v
  have h2 := splitOnChar_length_pos ' ' ((toString code).toList)
  have h3 := splitOnChar_length_pos ' ' t
  omega

/-! ### Claim C8: serializing then re-parsing recovers headers and body -/

theorem render_line_no_crlf (k v : Str) (hk : occursIn crlf k = false)
    (hv : occursIn crlf v = false) :
    occursIn crlf (k ++ colonSpace ++ v) = false := by
  rw [List.append_assoc]
  refine occursIn_crlf_append hk ?_ (by simp [colonSpace])
  show occursIn crlf (':' :: ' ' :: v) = false
  have h1 : leadsWith crlf (':' :: ' ' :: v) = false := by simp [leadsWith, crlf]
  have h2 := occursIn_cons_elim (occ_crlf_cons_space v hv)
  simp [occursIn, h1, h2.1, h2.2]

theorem serializer_shape (r : Response) :
    parse_response_to_str r =
      joinStr [' '] [r.status_line.version, (toString r.status_line.status_code).toList,
          r.status_line.status_text] ++ crlf ++
        (joinStr crlf (r.headers.map fun h => h.key ++ colonSpace ++ h.value) ++ crlf2 ++
          r.body) := by
  unfold parse_response_to_str
  simp [crlf, crlf2, List.append_assoc]

/-- C8 counterexample: the claim's guard (at least one header, no key
containing `": "`, no key or value containing CRLF, a status line of three
tokens) is satisfied by a response whose status text contains a CRLF, yet
re-parsing the serialized output fails entirely instead of reproducing the
original headers and body. -/
theorem serialize_reparse_counterexample :
    ([{ key := ("a").toList, value := ("b").toList }] : List Header) ≠ [] ∧
    (∀ h ∈ ([{ key := ("a").toList, value := ("b").toList }] : List Header),
       occursIn colonSpace h.key = false ∧ occursIn crlf h.key = false ∧
       occursIn crlf h.value = false) ∧
    (splitOnChar ' ' (joinStr [' ']
       [("HTTP/1.1").toList, (toString (200 : Int)).toList, ("OK\r\nX").toList])).length = 3 ∧
    parse_str_to_request (parse_response_to_str
      { status_line := { version := ("HTTP/1.1").toList, status_code := 200,
                         status_text := ("OK\r\nX").toList },
        headers := [{ key := ("a").toList, value := ("b").toList }],
        body := [] }) = none := by decide

/-- C8 amended: for every response with at least one header, no header key
containing `": "`, no header key or value containing CRLF, and — additionally
to the claim as stated — no CRLF inside the status-line version or reason text
(the three-token condition is then automatic, two spaces being inserted),
parsing the serialized output succeeds and reproduces exactly the original
header sequence and the original body. -/
theorem serialize_reparse_round_trip (r : Response)
    (hne : r.headers ≠ [])
    (hkeys : ∀ h ∈ r.headers, occursIn colonSpace h.key = false)
    (hkcr : ∀ h ∈ r.headers, occursIn crlf h.key = false)
    (hvcr : ∀ h ∈ r.headers, occursIn crlf h.value = false)
    (hver : occursIn crlf r.status_line.version = false)
    (htext : occursIn crlf r.status_line.status_text = false) :
    ∃ req, parse_str_to_request (parse_response_to_str r) = some req ∧
      req.headers = r.headers ∧ req.body = r.body := by
  have hlines : ∀ l ∈ r.headers.map (fun h => h.key ++ colonSpace ++ h.value),
      l ≠ [] ∧ occursIn crlf l = false := by
    intro l hl
    obtain ⟨h, hmem, rfl⟩ := List.mem_map.mp hl
    exact ⟨by simp [colonSpace], render_line_no_crlf _ _ (hkcr h hmem) (hvcr h hmem)⟩
  have hJ := join_good _ hlines
  have h3 : splitOnceSeq crlf2
      (joinStr crlf (r.headers.map fun h => h.key ++ colonSpace ++ h.value) ++ crlf2 ++
        r.body) =
      some (joinStr crlf (r.headers.map fun h => h.key ++ colonSpace ++ h.value), r.body) :=
    splitOnceSeq_crlf2_append _ _ hJ.1 hJ.2
  have hoccS : occursIn crlf (joinStr [' '] [r.status_line.version,
      (toString r.status_line.status_code).toList, r.status_line.status_text]) = false :=
    occ_crlf_status _ _ _ hver htext
  have h1 : splitOnceSeq crlf (joinStr [' '] [r.status_line.version,
      (toString r.status_line.status_code).toList, r.status_line.status_text] ++ crlf ++
        (joinStr crlf (r.headers.map fun h => h.key ++ colonSpace ++ h.value) ++ crlf2 ++
          r.body)) =
      some (joinStr [' '] [r.status_line.version,
        (toString r.status_line.status_code).toList, r.status_line.status_text],
        joinStr crlf (r.headers.map fun h => h.key ++ colonSpace ++ h.value) ++ crlf2 ++
          r.body) :=
    splitOnceSeq_pair (by decide) _ _ hoccS
  have h2 : ¬ (splitOnChar ' ' (joinStr [' '] [r.status_line.version,
      (toString r.status_line.status_code).toList, r.status_line.status_text])).length < 3 := by
    have h4 := status_tokens r.status_line.version r.status_line.status_text
      r.status_line.status_code
    omega
  have h5 : splitCRLF (joinStr crlf
      (r.headers.map fun h => h.key ++ colonSpace ++ h.value)) =
      r.headers.map fun h => h.key ++ colonSpace ++ h.value :=
    splitCRLF_join _ (by simp [hne]) fun l hl => (hlines l hl).2
  have h6 := mapOpt_render r.headers hkeys
  have main : parse_str_to_request (parse_response_to_str r) =
      some { request_line :=
               { method := (splitOnChar ' ' (joinStr [' '] [r.status_line.version,
                   (toString r.status_line.status_code).toList,
                   r.status_line.status_text])).getD 0 []
                 target := (splitOnChar ' ' (joinStr [' '] [r.status_line.version,
                   (toString r.status_line.status_code).toList,
                   r.status_line.status_text])).getD 1 []
                 version := (splitOnChar ' ' (joinStr [' '] [r.status_line.version,
                   (toString r.status_line.status_code).toList,
                   r.status_line.status_text])).getD 2 [] }
             headers := r.headers
             body := r.body } := by
    rw [serializer_shape r]
    simp only [parse_str_to_request, h1]
    rw [if_neg h2]
    simp only [h3, h5, h6]
  exact ⟨_, main, rfl, rfl⟩

/-- C8 amended, witness: a concrete response with one header and body `xyz`
serializes and re-parses to the same header list and body. -/
theorem serialize_reparse_round_trip_witness :
    ∃ req, parse_str_to_request (parse_response_to_str
      { status_line := { version := ("HTTP/1.1").toList, status_code := 200,
                         status_text := ("OK").toList },
        headers := [{ key := ("a").toList, value := ("b").toList }],
        body := ("xyz").toList }) = some req ∧
      req.headers = [{ key := ("a").toList, value := ("b").toList }] ∧
      req.body = ("xyz").toList :=
  serialize_reparse_round_trip _ (by decide) (by decide) (by decide) (by decide)
    (by decide) (by decide)

end HttpServer
